import Mathlib

/-
Verification development for the on-device supervisor in
nodejs-assets/nodejs-project/main.js: envelope normalization, source
resolution, the download pipeline, the script-service and static-service
lifecycle.  JavaScript values flowing through the message channel are
modelled by the inductive JVal; machine behaviour that is external to the
program (the HTTP network, the metadata endpoints, the regular-expression
engine, the sandboxed script) is passed in as explicit data so that every
branch of the translated functions mirrors a branch of the source.
-/

namespace Noname

/-- JSON-like runtime values.  jnull stands for both null and undefined
(the code only ever distinguishes them through truthiness and through
property access, which agree on the two). -/
inductive JVal where
  | jnull
  | jbool (b : Bool)
  | jnum (n : Int)
  | jstr (s : String)
  | jarr (xs : List JVal)
  | jobj (fields : List (String × JVal))

/-- JavaScript truthiness on modelled values: null/undefined, false, 0 and
the empty string are falsy; every object and array is truthy. -/
def truthy : JVal → Bool
  | JVal.jnull => false
  | JVal.jbool b => b
  | JVal.jnum n => n != 0
  | JVal.jstr s => s != ""
  | JVal.jarr _ => true
  | JVal.jobj _ => true

/-- typeof v === "object" for a truthy v: objects and arrays only
(null is excluded because every use site guards with truthiness first). -/
def isObjLike : JVal → Bool
  | JVal.jarr _ => true
  | JVal.jobj _ => true
  | _ => false

/-- Property lookup on an object: later bindings shadow earlier ones, as
JSON.parse and object literals behave in JavaScript.  Non-objects have no
string-keyed properties in the fragment the code touches. -/
def lookupField : List (String × JVal) → String → Option JVal
  | [], _ => none
  | (k, v) :: rest, key =>
    match lookupField rest key with
    | some r => some r
    | none => if k = key then some v else none

def JVal.getField : JVal → String → Option JVal
  | JVal.jobj fs, key => lookupField fs key
  | _, _ => none

/-- Property access v.key as an expression: undefined (jnull) when the
property is missing. -/
def JVal.field (v : JVal) (key : String) : JVal :=
  (v.getField key).getD JVal.jnull

/-! ### A JSON parser modelling JSON.parse

The code calls JSON.parse inside safeParse and treats a throw as null.
The parser below is executable and structurally recursive on a fuel
argument so that concrete inputs evaluate by rfl.  It covers the JSON
fragment exchanged by this program: objects, arrays, strings with the
simple escapes, integers, true/false/null.  (Fractional numbers do not
occur in any message of this protocol.) -/

def isJsonWs (c : Char) : Bool :=
  c = ' ' || c = '\t' || c = '\n' || c = '\r'

def skipWs : List Char → List Char
  | [] => []
  | c :: cs => if isJsonWs c then skipWs cs else c :: cs

/-- Body of a JSON string literal, after the opening quote. -/
def parseStringBody : List Char → List Char → Option (String × List Char)
  | [], _ => none
  | '"' :: rest, acc => some (String.mk acc.reverse, rest)
  | '\\' :: rest, acc =>
    match rest with
    | '"' :: rest2 => parseStringBody rest2 ('"' :: acc)
    | '\\' :: rest2 => parseStringBody rest2 ('\\' :: acc)
    | '/' :: rest2 => parseStringBody rest2 ('/' :: acc)
    | 'n' :: rest2 => parseStringBody rest2 ('\n' :: acc)
    | 't' :: rest2 => parseStringBody rest2 ('\t' :: acc)
    | 'r' :: rest2 => parseStringBody rest2 ('\r' :: acc)
    | _ => none
  | c :: rest, acc => parseStringBody rest (c :: acc)

def digitsToNat (ds : List Char) : Nat :=
  ds.foldl (fun n c => n * 10 + (c.toNat - '0'.toNat)) 0

/-- Parser modes: a value, the elements of an array after its opening
bracket, or the members of an object after its opening brace. -/
inductive PMode where
  | value
  | arrElems (acc : List JVal)
  | objMembers (acc : List (String × JVal))

def parseStep : Nat → PMode → List Char → Option (JVal × List Char)
  | 0, _, _ => none
  | Nat.succ fuel, PMode.value, cs =>
    match skipWs cs with
    | [] => none
    | '\x7b' :: rest =>
      (match skipWs rest with
       | '\x7d' :: rest2 => some (JVal.jobj [], rest2)
       | _ => parseStep fuel (PMode.objMembers []) rest)
    | '[' :: rest =>
      (match skipWs rest with
       | ']' :: rest2 => some (JVal.jarr [], rest2)
       | _ => parseStep fuel (PMode.arrElems []) rest)
    | '"' :: rest =>
      (match parseStringBody rest [] with
       | some (s, rest2) => some (JVal.jstr s, rest2)
       | none => none)
    | 't' :: 'r' :: 'u' :: 'e' :: rest => some (JVal.jbool true, rest)
    | 'f' :: 'a' :: 'l' :: 's' :: 'e' :: rest => some (JVal.jbool false, rest)
    | 'n' :: 'u' :: 'l' :: 'l' :: rest => some (JVal.jnull, rest)
    | '-' :: rest =>
      (match rest.span Char.isDigit with
       | ([], _) => none
       | (ds, rest2) => some (JVal.jnum (-(Int.ofNat (digitsToNat ds))), rest2))
    | c :: rest =>
      if c.isDigit then
        match (c :: rest).span Char.isDigit with
        | (ds, rest2) => some (JVal.jnum (Int.ofNat (digitsToNat ds)), rest2)
      else none
  | Nat.succ fuel, PMode.arrElems acc, cs =>
    match parseStep fuel PMode.value cs with
    | none => none
    | some (v, rest) =>
      match skipWs rest with
      | ',' :: rest2 => parseStep fuel (PMode.arrElems (acc ++ [v])) rest2
      | ']' :: rest2 => some (JVal.jarr (acc ++ [v]), rest2)
      | _ => none
  | Nat.succ fuel, PMode.objMembers acc, cs =>
    match skipWs cs with
    | '"' :: rest =>
      (match parseStringBody rest [] with
       | none => none
       | some (key, rest2) =>
         match skipWs rest2 with
         | ':' :: rest3 =>
           (match parseStep fuel PMode.value rest3 with
            | none => none
            | some (v, rest4) =>
              match skipWs rest4 with
              | ',' :: rest5 => parseStep fuel (PMode.objMembers (acc ++ [(key, v)])) rest5
              | '\x7d' :: rest5 => some (JVal.jobj (acc ++ [(key, v)]), rest5)
              | _ => none)
         | _ => none)
    | _ => none

/-- JSON.parse: the whole input must be consumed (up to trailing
whitespace), otherwise the parse fails, as JSON.parse throws. -/
def parseJSON (s : String) : Option JVal :=
  match parseStep (2 * s.data.length + 4) PMode.value s.data with
  | some (v, rest) => if skipWs rest = [] then some v else none
  | none => none

/-! ### MessageBridge: envelope normalization (main.js lines 579 to 647) -/

/-- safeParse(candidate): JSON.parse wrapped so that a non-string input or
a parse failure yields null. -/
def safeParse : JVal → JVal
  | JVal.jstr s => (parseJSON s).getD JVal.jnull
  | _ => JVal.jnull

/-- v.event === "message": strict comparison of the event property with
the string literal. -/
def isMessageEvent (v : JVal) : Bool :=
  match v.getField "event" with
  | some (JVal.jstr s) => s == "message"
  | _ => false

/-- extractEnvelopePayload (main.js lines 625 to 647): an envelope payload
is accepted only through its array form — the payload itself when it is an
array, or the result of safeParse when it is a string; anything else makes
values null and the function returns null.  From a non-empty array the
first element is returned when it is object-like, parsed when it is a
string, and dropped otherwise. -/
def extractEnvelopePayload (payload : JVal) : JVal :=
  if truthy payload = false then JVal.jnull
  else
    let values : JVal :=
      match payload with
      | JVal.jarr xs => JVal.jarr xs
      | JVal.jstr s => safeParse (JVal.jstr s)
      | _ => JVal.jnull
    match values with
    | JVal.jarr (first :: _) =>
      if isObjLike first then first
      else
        match first with
        | JVal.jstr s => safeParse (JVal.jstr s)
        | _ => JVal.jnull
    | _ => JVal.jnull

/-- normalizeMessage (main.js lines 579 to 612).  A falsy input is
dropped; a non-array object is unwrapped through extractEnvelopePayload
when it carries event === "message" and returned as-is otherwise; an array
contributes its first element (parsed when a string); a string is parsed
and, when the result is a truthy object carrying event === "message" with
an extractable payload, that payload is returned, else the parsed value
itself; everything else is dropped.  jnull models the JS null return. -/
def normalizeMessage (raw : JVal) : JVal :=
  if truthy raw = false then JVal.jnull
  else
    match raw with
    | JVal.jobj fs =>
      if isMessageEvent (JVal.jobj fs) then
        extractEnvelopePayload ((JVal.jobj fs).field "payload")
      else JVal.jobj fs
    | JVal.jarr xs =>
      (match xs with
       | [] => JVal.jnull
       | first :: _ =>
         if isObjLike first then first
         else
           match first with
           | JVal.jstr s => safeParse (JVal.jstr s)
           | _ => JVal.jnull)
    | JVal.jstr s =>
      let parsed := safeParse (JVal.jstr s)
      if truthy parsed && isObjLike parsed then
        if isMessageEvent parsed then
          let envelopePayload := extractEnvelopePayload (parsed.field "payload")
          if truthy envelopePayload then envelopePayload else parsed
        else parsed
      else JVal.jnull
    | _ => JVal.jnull

/-! ### SourceResolver (main.js lines 669 to 720)

fetchJson hits the network, so its two relevant call sites (the repo
metadata endpoint and the commit endpoint) are supplied as a MetaOracle:
ok j when the promise resolved with the parsed JSON j, err when it was
rejected (network error or JSON parse failure).  The JavaScript regular
expression match in resolveGitHub is an engine call; it is supplied as its
outcome, an optional (owner, repo) pair, exactly the data the code reads
from the match object. -/

/-- Outcome of one fetchJson call. -/
inductive FetchResult where
  | ok (j : JVal)
  | err

/-- The two metadata endpoints queried while resolving a repository
locator. -/
structure MetaOracle where
  repoMeta : FetchResult
  commitMeta : FetchResult

/-- url.endsWith(suffix) on the character sequence. -/
def strEndsWith (s suffix : String) : Bool :=
  suffix.data.isSuffixOf s.data

/-- The deterministic artifact URL built in resolveGitHub. -/
def codeloadUrl (owner repo branch : String) : String :=
  "https://codeload.github.com/" ++ owner ++ "/" ++ repo ++
    "/zip/refs/heads/" ++ branch

/-- What resolveSource resolves with.  Every branch of the source resolves
a promise; none rejects, so the type has no error alternative. -/
structure ResolveResult where
  downloadUrl : String
  branch : String
  version : JVal

/-- resolveBranch (main.js lines 708 to 720): a truthy fallback wins; else
the repo metadata default_branch when it is a string on a truthy response;
else, including on a rejected fetch, the literal "main". -/
def resolveBranch (branchFallback : String) (o : MetaOracle) : String :=
  if branchFallback != "" then branchFallback
  else
    match o.repoMeta with
    | FetchResult.ok j =>
      if truthy j then
        match j.getField "default_branch" with
        | some (JVal.jstr s) => s
        | _ => "main"
      else "main"
    | FetchResult.err => "main"

/-- resolveGitHub (main.js lines 680 to 706): on a failed pattern match
the locator itself is resolved as the download URL; on a match the branch
is resolved, the codeload URL built, and the commit sha attached as
version when the commit metadata is truthy with a truthy sha — every
failure of that query is caught and degrades to a null version. -/
def resolveGitHub (repoUrl : String) (branchFallback : String)
    (regexMatch : Option (String × String)) (o : MetaOracle) : ResolveResult :=
  match regexMatch with
  | none =>
    ⟨repoUrl, if branchFallback != "" then branchFallback else "main", JVal.jnull⟩
  | some (owner, repo) =>
    let branch := resolveBranch branchFallback o
    let downloadUrl := codeloadUrl owner repo branch
    match o.commitMeta with
    | FetchResult.ok j =>
      ⟨downloadUrl, branch,
        if truthy j && truthy (j.field "sha") then j.field "sha" else JVal.jnull⟩
    | FetchResult.err => ⟨downloadUrl, branch, JVal.jnull⟩

/-- resolveSource (main.js lines 669 to 678): a locator ending in .git
goes through resolveGitHub, anything else is a direct artifact URL with
the fallback branch (default "main") and a null version. -/
def resolveSource (url : String) (branchFallback : String)
    (regexMatch : Option (String × String)) (o : MetaOracle) : ResolveResult :=
  if strEndsWith url ".git" then resolveGitHub url branchFallback regexMatch o
  else ⟨url, if branchFallback != "" then branchFallback else "main", JVal.jnull⟩

/-! ### Supervisor state, events, and command handlers -/

/-- currentConfig: the persisted configuration document.  The fields are
JVal because the set-resource-url handler copies whatever the payload
carries. -/
structure Config where
  resourceUrl : JVal
  branch : JVal
  version : JVal

/-- stateSnapshot(): the payload of state, ready and download-complete
events. -/
structure Snapshot where
  resourceUrl : JVal
  branch : JVal
  version : JVal
  hasResources : Bool
  serverRunning : Bool
  webServerPort : Option Nat

/-- The parts of process state a snapshot reads besides the config and the
filesystem: the captured handle flag and the static port. -/
structure RunState where
  serverRunning : Bool
  webServerPort : Option Nat

def snapshotOf (cfg : Config) (hasRes : Bool) (rs : RunState) : Snapshot :=
  ⟨cfg.resourceUrl, cfg.branch, cfg.version, hasRes, rs.serverRunning, rs.webServerPort⟩

/-- Outbound messages sent over nodejs.channel.  The state event payload
(a full snapshot) is not inspected by any claim and is elided. -/
inductive Event where
  | ready
  | stateEvent
  | downloadStarted
  | downloadProgress (downloaded total : Nat)
  | downloadComplete (snap : Snapshot)
  | serverStarted
  | serverStopped
  | webStarted (port : Option Nat)
  | webStopped
  | errorEvent (context : Option String) (message : String)

def isServerStarted : Event → Bool
  | Event.serverStarted => true
  | _ => false

def isServerStopped : Event → Bool
  | Event.serverStopped => true
  | _ => false

def startedCount (evs : List Event) : Nat :=
  (evs.filter isServerStarted).length

def stoppedCount (evs : List Event) : Nat :=
  (evs.filter isServerStopped).length

/-- The set-resource-url case of the message handler (main.js lines 468
to 478): guarded by data.payload && data.payload.url; inside the guard the
resource URL is overwritten, the branch only when the payload branch is
truthy, then saveMetadata and sendState run.  Returns the new config, a
persisted flag (did saveMetadata run), and the emitted events. -/
def setResourceUrl (cfg : Config) (payload : JVal) : Config × Bool × List Event :=
  if truthy payload && truthy (payload.field "url") then
    ({ cfg with
        resourceUrl := payload.field "url",
        branch := if truthy (payload.field "branch") then payload.field "branch"
                  else cfg.branch },
     true, [Event.stateEvent])
  else (cfg, false, [])

/-- handleDownload (main.js lines 649 to 667) for a configuration whose
resourceUrl and branch are the strings url and fb (as they are in every
run that has not persisted corrupted metadata).  The download and the
unpack are the awaited results of downloadToFile and unpackResource,
supplied as settle outcomes; downloadToFile is modelled in full further
below for the fetcher claims.  A successful unpackResource has renamed the
extracted root onto the resource path, so hasResources is true in the
final snapshot.  Returns the new config, the persisted flag, the events
sent by this handler, and the error the enclosing catch would receive. -/
def handleDownload (cfg : Config) (url fb : String)
    (regexMatch : Option (String × String)) (o : MetaOracle)
    (dl up : Except String Unit) (now : String) (rs : RunState) :
    Config × Bool × List Event × Option String :=
  let r := resolveSource url fb regexMatch o
  let cfg1 := { cfg with branch := JVal.jstr r.branch }
  match dl with
  | Except.error e => (cfg1, false, [Event.downloadStarted], some e)
  | Except.ok _ =>
    match up with
    | Except.error e => (cfg1, false, [Event.downloadStarted], some e)
    | Except.ok _ =>
      let cfg2 := { cfg1 with
        version := if truthy r.version then r.version else JVal.jstr now }
      (cfg2, true,
       [Event.downloadStarted, Event.downloadComplete (snapshotOf cfg2 true rs)],
       none)

/-! ### Fetcher: downloadToFile (main.js lines 746 to 799)

The network is supplied as the chain of answers the successive GET
requests receive: element k answers the request of hop k.  Each call first
opens a write stream on the destination (creating or truncating the file);
a response with a truthy status in [300, 400) and a truthy Location header
closes the stream, removes the file and recurses on the new URL; a truthy
status of at least 400 rejects with the status error and returns, removing
nothing; any other response streams the body and resolves; a request error
removes the file and rejects.  The outcome records the final on-disk state
of the destination, the settle result, the URL of the last request made,
and the number of redirect hops followed.  An empty chain means a request
that is never answered: the promise never settles, modelled as none. -/

/-- What one GET request comes back with. -/
inductive NetEvent where
  | response (statusCode : Nat) (location : Option String) (body : String)
  | transportError (msg : String)

/-- On-disk state of the destination file: absent, created but empty (the
write stream was opened and nothing was streamed), or holding a complete
body. -/
inductive FileState where
  | absent
  | created
  | complete (body : String)
deriving DecidableEq, Repr

inductive DlError where
  | transport (msg : String)
  | httpStatus (s : Nat)
deriving DecidableEq, Repr

structure DlOutcome where
  file : FileState
  result : Except DlError Unit
  finalUrl : String
  hops : Nat

/-- res.statusCode && res.statusCode >= 300 && res.statusCode < 400 &&
res.headers.location (a falsy empty Location header does not redirect). -/
def isRedirect (s : Nat) (loc : Option String) : Bool :=
  decide (s ≠ 0) && decide (300 ≤ s) && decide (s < 400) &&
    (match loc with
     | some l => decide (l ≠ "")
     | none => false)

/-- res.statusCode && res.statusCode >= 400. -/
def isHttpFailure (s : Nat) : Bool :=
  decide (s ≠ 0) && decide (400 ≤ s)

def downloadToFile (url : String) : List NetEvent → Option DlOutcome
  | [] => none
  | NetEvent.transportError msg :: _ =>
    some ⟨FileState.absent, Except.error (DlError.transport msg), url, 0⟩
  | NetEvent.response s loc body :: rest =>
    if isRedirect s loc then
      (downloadToFile (loc.getD "") rest).map
        (fun o => ⟨o.file, o.result, o.finalUrl, o.hops + 1⟩)
    else if isHttpFailure s then
      some ⟨FileState.created, Except.error (DlError.httpStatus s), url, 0⟩
    else
      some ⟨FileState.complete body, Except.ok (), url, 0⟩

/-- A chain of n redirects to loc followed by a 200 with the final body. -/
def redirectChain (n : Nat) (loc body : String) : List NetEvent :=
  List.replicate n (NetEvent.response 302 (some loc) "") ++
    [NetEvent.response 200 none body]

/-! ### StaticServer: startStaticServer (main.js lines 923 to 963)

staticServer and staticServerPort are the two module-level variables; the
handler assigns both before awaiting listen.  listenerBound records the
environment fact that an OS listener is actually bound (the listen promise
resolved); hasResourcesFs records fs.existsSync(resourcePath). -/

structure StaticState where
  staticServer : Bool
  staticServerPort : Option Nat
  listenerBound : Bool
  hasResourcesFs : Bool
deriving DecidableEq, Repr

/-- startStaticServer: with a server handle already present it re-emits
web-started with the current port and returns; with no resources it
throws; otherwise it sets the port to 8321 and the handle, then awaits
listen — which either binds and emits web-started, or rejects, leaving
both variables set with nothing bound. -/
def startStaticServer (st : StaticState) (bindOk : Bool) :
    StaticState × List Event × Option String :=
  if st.staticServer then (st, [Event.webStarted st.staticServerPort], none)
  else if st.hasResourcesFs = false then (st, [], some "Resources not downloaded")
  else
    let st1 := { st with staticServerPort := some 8321, staticServer := true }
    if bindOk then
      ({ st1 with listenerBound := true }, [Event.webStarted (some 8321)], none)
    else (st1, [], some "listen error")

/-- The spec invariant: staticServicePort is non-null exactly when the
listener is bound. -/
def portListenerInvariant (st : StaticState) : Prop :=
  st.staticServerPort.isSome = st.listenerBound

/-! ### ScriptHost: startWsServer / stopWsServer (main.js lines 834 to 921)

The sandboxed entry script is opaque to the host; what the interception
observes is the sequence of instances the script constructs through the
wrapped ws.Server constructor (each construction overwrites the capture
slot), and whether evaluation threw.  That observable behaviour is the
ScriptBehavior input; instances are named by numbers. -/

structure ScriptBehavior where
  throws : Bool
  constructed : List Nat

/-- The errors startWsServer can throw: the missing entry script, a throw
from the sandboxed evaluation, or completion with the capture slot still
empty. -/
inductive WsError where
  | missingScript
  | scriptThrew
  | noCapture
deriving DecidableEq, Repr

/-- wssController as an optional captured instance, next to the
fs.existsSync result for the entry script path. -/
structure WsState where
  controller : Option Nat
  entryExists : Bool
deriving DecidableEq, Repr

/-- startWsServer: an existing controller makes the call return at once
with no events; a missing entry script throws; a throwing evaluation
propagates; an evaluation that never fired the interception throws
"Failed to start WebSocket server"; otherwise the last constructed
instance is recorded as the controller and server-started plus a state
event are sent. -/
def startWsServer (st : WsState) (beh : ScriptBehavior) :
    WsState × List Event × Option WsError :=
  if st.controller.isSome then (st, [], none)
  else if st.entryExists = false then (st, [], some WsError.missingScript)
  else if beh.throws then (st, [], some WsError.scriptThrew)
  else
    match beh.constructed.getLast? with
    | none => (st, [], some WsError.noCapture)
    | some i =>
      ({ st with controller := some i }, [Event.serverStarted, Event.stateEvent], none)

/-- stopWsServer: nothing happens while stopped; otherwise the controller
closes (clearing the slot) and server-stopped plus a state event are
sent.  The close callback never throws: the inner close is wrapped in
try/catch with the clearing in finally. -/
def stopWsServer (st : WsState) : WsState × List Event :=
  if st.controller.isSome then
    ({ st with controller := none }, [Event.serverStopped, Event.stateEvent])
  else (st, [])

end Noname

section ParserChecks

open Noname

example : parseJSON "\x7b\"type\":\"get-state\"\x7d" =
    some (JVal.jobj [("type", JVal.jstr "get-state")]) := by rfl

example : parseJSON "[\x7b\"type\":\"get-state\"\x7d]" =
    some (JVal.jarr [JVal.jobj [("type", JVal.jstr "get-state")]]) := by rfl

example : parseJSON "not json" = none := by rfl

example : parseJSON "" = none := by rfl

example : normalizeMessage (JVal.jstr "\x7b\"type\":\"get-state\"\x7d") =
    JVal.jobj [("type", JVal.jstr "get-state")] := by rfl

example : normalizeMessage (JVal.jarr [JVal.jstr "\x7b\"type\":\"get-state\"\x7d"]) =
    JVal.jobj [("type", JVal.jstr "get-state")] := by rfl

example : normalizeMessage
    (JVal.jobj [("event", JVal.jstr "message"),
                ("payload", JVal.jarr [JVal.jobj [("type", JVal.jstr "get-state")]])]) =
    JVal.jobj [("type", JVal.jstr "get-state")] := by rfl

example : normalizeMessage (JVal.jstr "not json") = JVal.jnull := by rfl

example : normalizeMessage (JVal.jarr []) = JVal.jnull := by rfl

example : normalizeMessage
    (JVal.jobj [("event", JVal.jstr "message"),
                ("payload", JVal.jobj [("type", JVal.jstr "get-state")])]) =
    JVal.jnull := by rfl

end ParserChecks

namespace Noname

/-- The canonical get-state command as the code sees it: the discriminator
field is named type in the source (the spec calls it kind). -/
def getStateCmd : JVal := JVal.jobj [("type", JVal.jstr "get-state")]

/-- C3: the inbound normalizer maps the five accepted shapes of a
get-state message — the plain object, its JSON string, the singleton array
of the object, the singleton array of the JSON string, and the nested
event envelope around the singleton array — to the same canonical
get-state command, and maps null, the empty string, the empty array and a
non-JSON string to nothing (null), never erroring. -/
theorem normalizeMessage_get_state_shapes :
    normalizeMessage getStateCmd = getStateCmd ∧
    normalizeMessage (JVal.jstr "\x7b\"type\":\"get-state\"\x7d") = getStateCmd ∧
    normalizeMessage (JVal.jarr [getStateCmd]) = getStateCmd ∧
    normalizeMessage (JVal.jarr [JVal.jstr "\x7b\"type\":\"get-state\"\x7d"]) = getStateCmd ∧
    normalizeMessage
      (JVal.jobj [("event", JVal.jstr "message"), ("payload", JVal.jarr [getStateCmd])]) =
      getStateCmd ∧
    normalizeMessage JVal.jnull = JVal.jnull ∧
    normalizeMessage (JVal.jstr "") = JVal.jnull ∧
    normalizeMessage (JVal.jarr []) = JVal.jnull ∧
    normalizeMessage (JVal.jstr "not json") = JVal.jnull :=
  ⟨rfl, rfl, rfl, rfl, rfl, rfl, rfl, rfl, rfl⟩

/-- C4, counterexample: a nested event envelope whose payload is a plain
command object — one of the accepted inbound forms — is not unwrapped into
the carried command; normalizeMessage drops it to null, which is not the
carried get-state command. -/
theorem normalizeMessage_object_payload_dropped :
    normalizeMessage
      (JVal.jobj [("event", JVal.jstr "message"),
                  ("payload", JVal.jobj [("type", JVal.jstr "get-state")])]) =
      JVal.jnull ∧
    JVal.jnull ≠ JVal.jobj [("type", JVal.jstr "get-state")] :=
  ⟨rfl, fun h => JVal.noConfusion h⟩

/-- An inbound object with event "message" around the given payload. -/
def mkEnvelope (payload : JVal) : JVal :=
  JVal.jobj [("event", JVal.jstr "message"), ("payload", payload)]

/-- C4, amended: a nested event envelope is unwrapped only through the
sequence forms of its payload.  A payload that is an array headed by an
object yields that object; an array headed by a string yields the parse of
that string; a JSON string encoding an array headed by an object yields
that object; but a payload that is itself a plain command object is
dropped to nothing. -/
theorem normalizeMessage_envelope_unwrapping :
    (∀ (fs : List (String × JVal)) (rest : List JVal),
        normalizeMessage (mkEnvelope (JVal.jarr (JVal.jobj fs :: rest))) = JVal.jobj fs) ∧
    (∀ (s : String) (rest : List JVal),
        normalizeMessage (mkEnvelope (JVal.jarr (JVal.jstr s :: rest))) =
          safeParse (JVal.jstr s)) ∧
    (∀ (s : String) (first : JVal) (rest : List JVal),
        parseJSON s = some (JVal.jarr (first :: rest)) → isObjLike first = true →
        normalizeMessage (mkEnvelope (JVal.jstr s)) = first) ∧
    (∀ (g : List (String × JVal)),
        normalizeMessage (mkEnvelope (JVal.jobj g)) = JVal.jnull) := by
  refine ⟨?_, ?_, ?_, ?_⟩
  · intro fs rest
    rfl
  · intro s rest
    simp [normalizeMessage, mkEnvelope, truthy, isMessageEvent, JVal.getField,
      lookupField, JVal.field, extractEnvelopePayload, isObjLike]
  · intro s first rest hparse hobj
    have hs : s ≠ "" := by
      intro h
      rw [h] at hparse
      exact Option.noConfusion hparse
    simp [normalizeMessage, mkEnvelope, truthy, isMessageEvent, JVal.getField,
      lookupField, JVal.field, extractEnvelopePayload, safeParse, hparse, hobj, hs]
  · intro g
    rfl

/-- C4, witness for the amended theorem: the envelope around the JSON
string of a singleton array unwraps to the carried command. -/
theorem normalizeMessage_envelope_unwrapping_witness :
    normalizeMessage (mkEnvelope (JVal.jstr "[\x7b\"type\":\"get-state\"\x7d]")) =
      JVal.jobj [("type", JVal.jstr "get-state")] :=
  normalizeMessage_envelope_unwrapping.2.2.1 "[\x7b\"type\":\"get-state\"\x7d]"
    (JVal.jobj [("type", JVal.jstr "get-state")]) [] rfl rfl

/-- A metadata oracle on which every fetchJson call is rejected. -/
def failingMeta : MetaOracle := ⟨FetchResult.err, FetchResult.err⟩

/-- C5, counterexample: the locator "::::.git", which cannot be parsed
into any URL and whose repository pattern match fails (it contains no
github.com segment), still resolves — to itself as the download URL with
fallback branch "main" and a null version — instead of failing with a
ResolutionError as the claim requires.  No branch of resolveSource or
resolveGitHub rejects: the resolution type has no failure alternative at
all. -/
theorem resolveSource_unparsable_locator_resolves :
    resolveSource "::::.git" "" none failingMeta = ⟨"::::.git", "main", JVal.jnull⟩ := rfl

/-- C5, amended: metadata-query failures are never fatal — a recognized
repository locator with no explicit branch and failing metadata endpoints
resolves to the deterministic codeload URL with fallback branch "main" and
a null version.  But resolution never fails for any locator: there is no
ResolutionError path; a locator whose repository pattern match fails
resolves to the locator string itself, and a non-repository locator passes
through directly, each with the fallback branch and a null version. -/
theorem resolveSource_total_with_fallback :
    (∀ (url owner repo : String), strEndsWith url ".git" = true →
        resolveSource url "" (some (owner, repo)) failingMeta =
          ⟨codeloadUrl owner repo "main", "main", JVal.jnull⟩) ∧
    (∀ (url fb : String) (o : MetaOracle), strEndsWith url ".git" = true →
        resolveSource url fb none o =
          ⟨url, if fb != "" then fb else "main", JVal.jnull⟩) ∧
    (∀ (url fb : String) (rm : Option (String × String)) (o : MetaOracle),
        strEndsWith url ".git" = false →
        resolveSource url fb rm o =
          ⟨url, if fb != "" then fb else "main", JVal.jnull⟩) := by
  refine ⟨?_, ?_, ?_⟩
  · intro url owner repo h
    simp [resolveSource, h, resolveGitHub, resolveBranch, failingMeta]
  · intro url fb o h
    simp [resolveSource, h, resolveGitHub]
  · intro url fb rm o h
    simp [resolveSource, h]

/-- C5, witness: a github repository locator under the failing oracle
resolves to the codeload URL on branch main with a null version, and a
plain URL passes through. -/
theorem resolveSource_total_with_fallback_witness :
    resolveSource "https://github.com/libnoname/noname.git" "" (some ("libnoname", "noname"))
        failingMeta =
      ⟨codeloadUrl "libnoname" "noname" "main", "main", JVal.jnull⟩ ∧
    resolveSource "https://example.com/bundle.zip" "" none failingMeta =
      ⟨"https://example.com/bundle.zip", "main", JVal.jnull⟩ :=
  ⟨resolveSource_total_with_fallback.1 "https://github.com/libnoname/noname.git"
      "libnoname" "noname" (by decide),
   resolveSource_total_with_fallback.2.2 "https://example.com/bundle.zip" "" none
      failingMeta (by decide)⟩

/-- C2, counterexample: a download answered with status 404 settles with
the DownloadError, but the destination file is left behind in the created
state — the write stream already opened it, truncating any prior content,
and the status branch rejects without removing it.  The destination is
neither the complete downloaded content nor absent. -/
theorem downloadToFile_status404_leaves_file :
    downloadToFile "https://example.com/a.zip" [NetEvent.response 404 none "body"] =
      some ⟨FileState.created, Except.error (DlError.httpStatus 404),
        "https://example.com/a.zip", 0⟩ ∧
    FileState.created ≠ FileState.absent ∧
    FileState.created ≠ FileState.complete "body" :=
  ⟨rfl, by simp [portListenerInvariant], by simp [portListenerInvariant]⟩

/-- C2, amended: after download settles, the destination file is the
complete downloaded content on success; on a transport error the partial
file has been removed, so the destination is absent — including on every
redirect hop, whose intermediate file is removed before re-invoking; but
on an HTTP failure status of at least 400 the error propagates with the
created-and-truncated destination file still in place. -/
theorem downloadToFile_settled_file_state :
    ∀ (chain : List NetEvent) (url : String) (out : DlOutcome),
      downloadToFile url chain = some out →
      (out.result = Except.ok () → ∃ b, out.file = FileState.complete b) ∧
      (∀ m, out.result = Except.error (DlError.transport m) → out.file = FileState.absent) ∧
      (∀ s, out.result = Except.error (DlError.httpStatus s) → out.file = FileState.created) := by
  intro chain
  induction chain with
  | nil =>
    intro url out h
    exact Option.noConfusion h
  | cons e rest ih =>
    intro url out h
    cases e with
    | transportError m =>
      rw [downloadToFile] at h
      cases h
      refine ⟨fun hok => ?_, fun m2 _ => rfl, fun s hs => ?_⟩
      · simp at hok
      · simp at hs
    | response s loc body =>
      rw [downloadToFile] at h
      by_cases hr : isRedirect s loc = true
      · rw [if_pos hr] at h
        rcases Option.map_eq_some'.mp h with ⟨o, ho, rfl⟩
        exact ih (loc.getD "") o ho
      · rw [if_neg hr] at h
        by_cases hf : isHttpFailure s = true
        · rw [if_pos hf] at h
          cases h
          refine ⟨fun hok => ?_, fun m hm => ?_, fun s2 _ => rfl⟩
          · simp at hok
          · simp at hm
        · rw [if_neg hf] at h
          cases h
          refine ⟨fun _ => ⟨body, rfl⟩, fun m hm => ?_, fun s2 hs2 => ?_⟩
          · simp at hm
          · simp at hs2

/-- C2, witness for the amended theorem: a transport error settles with
the destination absent, evaluated on a one-element chain. -/
theorem downloadToFile_settled_file_state_witness :
    FileState.absent = FileState.absent :=
  (downloadToFile_settled_file_state [NetEvent.transportError "reset"] "u"
      ⟨FileState.absent, Except.error (DlError.transport "reset"), "u", 0⟩ rfl).2.1
    "reset" rfl

/-- C10: redirect following has no count limit.  For every n, a finite
chain of n redirect responses followed by a terminal 200 settles: all n
hops are followed (the hop count of the outcome is exactly n), the final
request goes to the redirect target, and the destination completes with
the final body.  Termination rests only on the chain being finite — the
code enforces no maximum number of redirects. -/
theorem downloadToFile_follows_every_finite_chain :
    ∀ (n : Nat) (url loc body : String), loc ≠ "" →
      downloadToFile url (redirectChain n loc body) =
        some ⟨FileState.complete body, Except.ok (), (if n = 0 then url else loc), n⟩ := by
  intro n
  induction n with
  | zero =>
    intro url loc body hloc
    rfl
  | succ k ih =>
    intro url loc body hloc
    have hstep : redirectChain (k + 1) loc body =
        NetEvent.response 302 (some loc) "" :: redirectChain k loc body := by
      simp [redirectChain, List.replicate_succ]
    rw [hstep, downloadToFile, if_pos (by simp [isRedirect, hloc]),
      Option.getD_some, ih loc loc body hloc]
    cases k with
    | zero => rfl
    | succ j => rfl

/-- C10, witness: a two-hop chain is followed to completion with hop
count two. -/
theorem downloadToFile_follows_every_finite_chain_witness :
    downloadToFile "https://a.example" (redirectChain 2 "https://b.example" "payload") =
      some ⟨FileState.complete "payload", Except.ok (), "https://b.example", 2⟩ :=
  downloadToFile_follows_every_finite_chain 2 "https://a.example" "https://b.example"
    "payload" (by decide)

/-- C1: evaluation of start-web at the failing input.  From a clean state
with resources installed (handle clear, port null, nothing bound — the
invariant holds), a bind failure makes the command fail with an error the
handler turns into an error event; but the failed start leaves
staticServerPort set to 8321 and the staticServer handle assigned with no
listener bound, so the port/listener invariant is broken, not preserved:
both variables were assigned before listen was awaited and the rejection
path resets neither. -/
theorem startStaticServer_bind_failure_breaks_invariant :
    startStaticServer ⟨false, none, false, true⟩ false =
      (⟨true, some 8321, false, true⟩, [], some "listen error") ∧
    portListenerInvariant ⟨false, none, false, true⟩ ∧
    ¬ portListenerInvariant ⟨true, some 8321, false, true⟩ :=
  ⟨rfl, by simp [portListenerInvariant], by simp [portListenerInvariant]⟩

/-- C6: the ScriptHost contract of startWsServer.  With no controller yet:
a missing entry script fails with the missing-script error; an evaluation
that completes without the interception ever firing (no instance
constructed) fails with the no-capture error; and an evaluation that
constructs instances through the intercepted ws.Server records the
captured instance as the controller and emits server-started. -/
theorem startWsServer_contract :
    (∀ (st : WsState) (beh : ScriptBehavior),
        st.controller = none → st.entryExists = false →
        startWsServer st beh = (st, [], some WsError.missingScript)) ∧
    (∀ (st : WsState),
        st.controller = none → st.entryExists = true →
        startWsServer st ⟨false, []⟩ = (st, [], some WsError.noCapture)) ∧
    (∀ (st : WsState) (insts : List Nat) (i : Nat),
        st.controller = none → st.entryExists = true →
        insts.getLast? = some i →
        startWsServer st ⟨false, insts⟩ =
          ({ st with controller := some i },
           [Event.serverStarted, Event.stateEvent], none)) := by
  refine ⟨?_, ?_, ?_⟩
  · intro st beh h0 he
    simp [startWsServer, h0, he]
  · intro st h0 he
    simp [startWsServer, h0, he]
  · intro st insts i h0 he hlast
    simp [startWsServer, h0, he, hlast]

/-- C6, witness: a script that constructs exactly one instance yields a
successful start capturing it; evaluated at instance 7. -/
theorem startWsServer_contract_witness :
    startWsServer ⟨none, true⟩ ⟨false, [7]⟩ =
      (⟨some 7, true⟩, [Event.serverStarted, Event.stateEvent], none) :=
  startWsServer_contract.2.2 ⟨none, true⟩ [7] 7 rfl rfl rfl

/-- C7: lifecycle idempotence.  A second start-server issued while the
service is already running returns with no events and no state change, so
the two calls together emit exactly one server-started and capture no
second handle; stop-server while stopped changes nothing and emits no
server-stopped. -/
theorem wsLifecycle_idempotent :
    (∀ (st : WsState) (beh beh2 : ScriptBehavior) (st1 : WsState) (ev1 : List Event),
        st.controller = none →
        startWsServer st beh = (st1, ev1, none) →
        startWsServer st1 beh2 = (st1, [], none) ∧
        startedCount (ev1 ++ (startWsServer st1 beh2).2.1) = 1) ∧
    (∀ (st : WsState), st.controller = none →
        stopWsServer st = (st, []) ∧ stoppedCount (stopWsServer st).2 = 0) := by
  refine ⟨?_, ?_⟩
  · intro st beh beh2 st1 ev1 h0 h1
    by_cases he : st.entryExists = false
    · simp [startWsServer, h0, he] at h1
    · by_cases ht : beh.throws = true
      · simp [startWsServer, h0, he, ht] at h1
      · cases hlast : beh.constructed.getLast? with
        | none => simp [startWsServer, h0, he, ht, hlast] at h1
        | some i =>
          simp [startWsServer, h0, he, ht, hlast] at h1
          obtain ⟨hst1, hev1⟩ := h1
          subst hst1
          subst hev1
          constructor
          · simp [startWsServer]
          · simp [startWsServer, startedCount, isServerStarted]
  · intro st h0
    constructor
    · simp [stopWsServer, h0]
    · simp [stopWsServer, h0, stoppedCount]

/-- C7, witness: from a stopped state, a successful start followed by a
second start emits one server-started in total, and stop while stopped is
a silent no-op. -/
theorem wsLifecycle_idempotent_witness :
    (startWsServer ⟨some 5, true⟩ ⟨false, [9]⟩ = (⟨some 5, true⟩, [], none) ∧
     startedCount ([Event.serverStarted, Event.stateEvent] ++
       (startWsServer ⟨some 5, true⟩ ⟨false, [9]⟩).2.1) = 1) ∧
    (stopWsServer ⟨none, true⟩ = (⟨none, true⟩, []) ∧
     stoppedCount (stopWsServer ⟨none, true⟩).2 = 0) :=
  ⟨wsLifecycle_idempotent.1 ⟨none, true⟩ ⟨false, [5]⟩ ⟨false, [9]⟩ ⟨some 5, true⟩
      [Event.serverStarted, Event.stateEvent] rfl rfl,
   wsLifecycle_idempotent.2 ⟨none, true⟩ rfl⟩

/-- C8: a successful downloadAndInstall sets the installed version to the
resolved version when that version is truthy, else to the supplied
current-timestamp string; and for a plain non-repository URL — where the
resolved version is null — the handler persists the configuration with the
timestamp version and finishes with download-complete carrying the full
snapshot with hasResources true. -/
theorem handleDownload_version_and_completion :
    (∀ (cfg : Config) (url fb now : String) (rm : Option (String × String))
        (o : MetaOracle) (rs : RunState),
        (handleDownload cfg url fb rm o (Except.ok ()) (Except.ok ()) now rs).1.version =
          (if truthy (resolveSource url fb rm o).version
           then (resolveSource url fb rm o).version else JVal.jstr now)) ∧
    (∀ (cfg : Config) (url fb now : String) (rm : Option (String × String))
        (o : MetaOracle) (rs : RunState),
        strEndsWith url ".git" = false →
        handleDownload cfg url fb rm o (Except.ok ()) (Except.ok ()) now rs =
          ({ cfg with branch := JVal.jstr (if fb != "" then fb else "main"),
                      version := JVal.jstr now },
           true,
           [Event.downloadStarted,
            Event.downloadComplete
              ⟨cfg.resourceUrl, JVal.jstr (if fb != "" then fb else "main"),
               JVal.jstr now, true, rs.serverRunning, rs.webServerPort⟩],
           none)) := by
  refine ⟨?_, ?_⟩
  · intro cfg url fb now rm o rs
    simp [handleDownload]
  · intro cfg url fb now rm o rs h
    simp [handleDownload, resolveSource, h, snapshotOf, truthy]

/-- C8, witness: reconfigured to a plain zip URL, a successful download
and install yields the timestamp version, the persisted flag, and
download-complete with hasResources true. -/
theorem handleDownload_version_and_completion_witness :
    handleDownload ⟨JVal.jstr "https://example.com/b.zip", JVal.jstr "main", JVal.jnull⟩
        "https://example.com/b.zip" "main" none failingMeta
        (Except.ok ()) (Except.ok ()) "2026-10-12T00:00:00.000Z" ⟨false, none⟩ =
      (⟨JVal.jstr "https://example.com/b.zip", JVal.jstr "main",
          JVal.jstr "2026-10-12T00:00:00.000Z"⟩,
       true,
       [Event.downloadStarted,
        Event.downloadComplete
          ⟨JVal.jstr "https://example.com/b.zip", JVal.jstr "main",
           JVal.jstr "2026-10-12T00:00:00.000Z", true, false, none⟩],
       none) :=
  handleDownload_version_and_completion.2
    ⟨JVal.jstr "https://example.com/b.zip", JVal.jstr "main", JVal.jnull⟩
    "https://example.com/b.zip" "main" "2026-10-12T00:00:00.000Z" none failingMeta
    ⟨false, none⟩ (by decide)

/-- C9: the set-resource-url frame conditions.  A falsy payload, and a
payload whose url property is falsy, leave the configuration untouched,
persist nothing and emit no event; and a payload carrying a non-empty url
with the branch property absent or the empty string updates resourceUrl
while the tracked branch stays unchanged (the update persists and emits
one state event). -/
theorem setResourceUrl_frame :
    (∀ (cfg : Config) (payload : JVal), truthy payload = false →
        setResourceUrl cfg payload = (cfg, false, [])) ∧
    (∀ (cfg : Config) (payload : JVal), truthy (payload.field "url") = false →
        setResourceUrl cfg payload = (cfg, false, [])) ∧
    (∀ (cfg : Config) (fs : List (String × JVal)) (u : String),
        lookupField fs "url" = some (JVal.jstr u) → u ≠ "" →
        (lookupField fs "branch" = none ∨ lookupField fs "branch" = some (JVal.jstr "")) →
        setResourceUrl cfg (JVal.jobj fs) =
          ({ cfg with resourceUrl := JVal.jstr u }, true, [Event.stateEvent])) := by
  refine ⟨?_, ?_, ?_⟩
  · intro cfg payload h
    simp [setResourceUrl, h]
  · intro cfg payload h
    simp [setResourceUrl, h]
  · intro cfg fs u hu hne hb
    rcases hb with hb | hb
    · simp [setResourceUrl, JVal.field, JVal.getField, truthy, hu, hne, hb]
    · simp [setResourceUrl, JVal.field, JVal.getField, truthy, hu, hne, hb]

/-- C9, witness: a payload with a url and no branch updates resourceUrl
and keeps the tracked branch "dev"; evaluated concretely. -/
theorem setResourceUrl_frame_witness :
    setResourceUrl ⟨JVal.jstr "a", JVal.jstr "dev", JVal.jnull⟩
        (JVal.jobj [("url", JVal.jstr "https://example.com/b.zip")]) =
      (⟨JVal.jstr "https://example.com/b.zip", JVal.jstr "dev", JVal.jnull⟩,
       true, [Event.stateEvent]) :=
  setResourceUrl_frame.2.2 ⟨JVal.jstr "a", JVal.jstr "dev", JVal.jnull⟩
    [("url", JVal.jstr "https://example.com/b.zip")] "https://example.com/b.zip"
    rfl (by decide) (Or.inl rfl)

end Noname
